import Mathlib

/-!
Verification of the markdown-subset parsers of the Linkedin-Synth repository:
the inline span tokenizer and summary block parser (`SummaryDisplay` source file)
and the resume parser `parseResumeMarkdown` (`ResumeCreator.tsx`).

The JavaScript string primitives used by the source (`trim`, `split`,
`startsWith`, `String.prototype.replace` with a string pattern = first
occurrence only, and the few regular expressions) are embedded as structurally
recursive functions on `List Char`, so that every definition evaluates by
kernel reduction.
-/

/-- The backtick character (code 96), written via `Char.ofNat`. -/
def backtick : Char := Char.ofNat 96

/-- JavaScript whitespace test, restricted to the ASCII whitespace characters
that actually occur in the parsed texts. -/
def jsWhite (c : Char) : Bool :=
  c == ' ' || c == '\t' || c == '\n' || c == '\r'

/-- JavaScript `String.prototype.trim`: drop whitespace from both ends. -/
def jsTrim (cs : List Char) : List Char :=
  ((cs.dropWhile jsWhite).reverse.dropWhile jsWhite).reverse

/-- JavaScript `String.prototype.split` with a single-character separator:
`"".split(c) = [""]`, and a trailing separator yields a final empty piece. -/
def splitOnChar (sep : Char) : List Char → List (List Char)
  | [] => [[]]
  | c :: cs =>
    let r := splitOnChar sep cs
    if c == sep then [] :: r
    else
      match r with
      | h :: t => (c :: h) :: t
      | [] => [[c]]

/-- JavaScript `String.prototype.startsWith` on character lists. -/
def startsWithPat : List Char → List Char → Bool
  | [], _ => true
  | _ :: _, [] => false
  | p :: ps, c :: cs => p == c && startsWithPat ps cs

/-- Index of the first occurrence of `pat` in `cs`, if any. -/
def firstIndexOfPat (pat : List Char) : List Char → Option Nat
  | [] => if startsWithPat pat [] then some 0 else none
  | c :: cs =>
    if startsWithPat pat (c :: cs) then some 0
    else (firstIndexOfPat pat cs).map (· + 1)

/-- Index of the last occurrence of `pat` in `cs`, if any.  This is where a
greedy `(.*)` group before `pat` ends up after backtracking. -/
def lastIndexOfPat (pat : List Char) : List Char → Option Nat
  | [] => if startsWithPat pat [] then some 0 else none
  | c :: cs =>
    match lastIndexOfPat pat cs with
    | some i => some (i + 1)
    | none => if startsWithPat pat (c :: cs) then some 0 else none

/-- JavaScript `String.prototype.replace` with a plain-string pattern and empty
replacement: remove the first occurrence of `pat`, leave the rest unchanged. -/
def replaceFirstPat (pat : List Char) (cs : List Char) : List Char :=
  match firstIndexOfPat pat cs with
  | some i => cs.take i ++ cs.drop (i + pat.length)
  | none => cs

/-- JavaScript `String.prototype.slice(a, -b)` (used as `slice(2,-2)` and
`slice(1,-1)` in the span classifier). -/
def jsSlice (cs : List Char) (a b : Nat) : List Char :=
  (cs.drop a).take (cs.length - a - b)

/-- A typed fragment of a text line, as produced by the inline tokenizer
`parseLine` of the summary renderer. -/
inductive Span where
  | text (s : String)
  | bold (s : String)
  | code (s : String)
  | link (label url : String)
  deriving DecidableEq, Repr

/-- Scan for the url part of the inner link regular expression
`\[(.*?)\]\((.*?)\)`: the lazy group ends at the first closing parenthesis. -/
def findCloseParen (acc : List Char) : List Char → Option (List Char × List Char)
  | [] => none
  | c :: rest => if c == ')' then some (acc, rest) else findCloseParen (acc ++ [c]) rest

/-- Scan for the label part of `\[(.*?)\]\((.*?)\)` after the opening bracket:
the lazy label group closes at the first candidate position where the tail of
the pattern succeeds, and grows past a failed candidate on backtracking. -/
def tryLabel (acc : List Char) : List Char → Option (List Char × List Char)
  | [] => none
  | c :: rest =>
    if c == ']' then
      match rest with
      | c2 :: rest2 =>
        if c2 == '(' then
          match findCloseParen [] rest2 with
          | some (url, _) => some (acc, url)
          | none => tryLabel (acc ++ [c]) rest
        else tryLabel (acc ++ [c]) rest
      | [] => none
    else tryLabel (acc ++ [c]) rest

/-- The unanchored JavaScript match `part.match(/\[(.*?)\]\((.*?)\)/)` used as
the defensive re-parse of a link-shaped part: leftmost opening bracket whose
label and url groups can be completed. -/
def jsLinkMatch : List Char → Option (List Char × List Char)
  | [] => none
  | c :: rest =>
    if c == '[' then
      match tryLabel [] rest with
      | some r => some r
      | none => jsLinkMatch rest
    else jsLinkMatch rest

/-- One attempt of the combined token regular expression
`(\*\*(?:[^*]+?|\*[^*])*?\*\*|`…`|\[…\](…))` at the current position.
For the bold alternative the lazy body together with backtracking matches up
to the first later occurrence of a double asterisk; for the code alternative
up to the next backtick, whose index must leave a non-empty body; the link
alternative needs a non-empty bracket-free label closed by a literal
bracket-parenthesis pair and a non-empty parenthesis-free url.
Returns the matched token and the remaining characters. -/
def tryToken (cs : List Char) : Option (List Char × List Char) :=
  match cs with
  | [] => none
  | c :: body =>
    if c == '*' then
      match body with
      | c2 :: body2 =>
        if c2 == '*' then
          match firstIndexOfPat ['*', '*'] body2 with
          | some j => some (c :: c2 :: body2.take (j + 2), body2.drop (j + 2))
          | none => none
        else none
      | [] => none
    else if c == backtick then
      match firstIndexOfPat [backtick] body with
      | some j =>
        if 1 ≤ j then some (c :: body.take (j + 1), body.drop (j + 1)) else none
      | none => none
    else if c == '[' then
      match firstIndexOfPat [']'] body with
      | some j =>
        if 1 ≤ j then
          match body.drop (j + 1) with
          | c2 :: after =>
            if c2 == '(' then
              match firstIndexOfPat [')'] after with
              | some k =>
                if 1 ≤ k then
                  some (c :: body.take (j + 2 + k + 1), body.drop (j + 2 + k + 1))
                else none
              | none => none
            else none
          | [] => none
        else none
      | none => none
    else none

/-- JavaScript `line.split(regex)` with the single capturing token group:
alternating fragments and matched tokens, beginning and ending with a
(possibly empty) fragment.  The fuel argument starts at `length + 1`; every
step consumes at least one character, so the fuel is never exhausted. -/
def scanAux : Nat → List Char → List Char → List (List Char)
  | 0, frag, rest => [frag ++ rest]
  | n + 1, frag, cs =>
    match tryToken cs with
    | some (tok, rest) => frag :: tok :: scanAux n [] rest
    | none =>
      match cs with
      | [] => [frag]
      | c :: rest => scanAux n (frag ++ [c]) rest

/-- The parts produced by splitting a line on the combined token pattern. -/
def splitTokens (cs : List Char) : List (List Char) :=
  scanAux (cs.length + 1) [] cs

/-- Classification of one split part, mirroring the body of the `parts.map`
callback: empty parts are dropped; a part wrapped in double asterisks becomes
a bold span (`slice(2,-2)`); one wrapped in backticks a code span
(`slice(1,-1)`); one starting with a bracket and ending with a parenthesis is
re-matched as a link and falls back to a plain span when that fails; anything
else is a plain span. -/
def classify (part : List Char) : Option Span :=
  if part.isEmpty then none
  else if startsWithPat ['*', '*'] part && startsWithPat ['*', '*'] part.reverse then
    some (.bold (jsSlice part 2 2).asString)
  else if startsWithPat [backtick] part && startsWithPat [backtick] part.reverse then
    some (.code (jsSlice part 1 1).asString)
  else if startsWithPat ['['] part && startsWithPat [')'] part.reverse then
    match jsLinkMatch part with
    | some (lab, url) => some (.link lab.asString url.asString)
    | none => some (.text part.asString)
  else some (.text part.asString)

/-- The inline tokenizer `parseLine` of the summary renderer, on character
lists: split on the combined token regular expression, then classify each
part, dropping empty parts. -/
def parseLineL (cs : List Char) : List Span :=
  (splitTokens cs).filterMap classify

/-- `parseLine` on strings. -/
def parseLine (line : String) : List Span :=
  parseLineL line.data

/-- A typed unit of the summary document tree built by the summary renderer. -/
inductive Block where
  | heading (spans : List Span)
  | para (spans : List Span)
  | list (items : List (List Span))
  deriving DecidableEq, Repr

/-- The heading marker checked by the summary renderer. -/
def hdr3 : List Char := ['#', '#', '#', ' ']

/-- The bullet marker checked by the summary renderer. -/
def bullet2 : List Char := ['*', ' ']

/-- `flushList` of the summary renderer: emit the accumulated list items as a
single list block, but only when the accumulator is non-empty. -/
def flushList (els : List Block) (items : List (List Span)) : List Block :=
  if items.isEmpty then els else els ++ [Block.list items]

/-- One iteration of the `lines.forEach` body of the summary renderer, on the
state (emitted blocks, open list accumulator): a trimmed line starting with
the heading marker flushes the open list and emits a heading; one starting
with the bullet marker appends its tokenized remainder to the open list; any
other non-blank line flushes and emits a paragraph; a blank line flushes. -/
def summaryStep (st : List Block × List (List Span)) (line : List Char) :
    List Block × List (List Span) :=
  let t := jsTrim line
  if startsWithPat hdr3 t then
    (flushList st.1 st.2 ++ [Block.heading (parseLineL (replaceFirstPat hdr3 t))], [])
  else if startsWithPat bullet2 t then
    (st.1, st.2 ++ [parseLineL (t.drop 2)])
  else if !t.isEmpty then
    (flushList st.1 st.2 ++ [Block.para (parseLineL t)], [])
  else
    (flushList st.1 st.2, [])

/-- The summary block parser embedded from `SummaryRenderer`: split the text
into lines, run the per-line step, and flush any remaining open list. -/
def parseSummary (text : String) : List Block :=
  let st := (splitOnChar '\n' text.data).foldl summaryStep ([], [])
  flushList st.1 st.2

/-- A structured work-experience entry of the resume parser. -/
structure Job where
  title : String
  company : String
  date : String
  description : List String
  deriving DecidableEq, Repr

/-- A skills line of the resume parser. -/
structure SkillLine where
  category : Option String
  items : String
  deriving DecidableEq, Repr

/-- The title-dependent body of a processed resume section. -/
inductive SectionBody where
  | jobs (js : List Job)
  | skills (ss : List SkillLine)
  | raw (content : String)
  deriving DecidableEq, Repr

/-- A processed resume section. -/
structure ResumeSection where
  title : String
  body : SectionBody
  deriving DecidableEq, Repr

/-- The resume header. -/
structure ResumeHeader where
  name : String
  contact : List String
  deriving DecidableEq, Repr

/-- The structured resume document. -/
structure ResumeDoc where
  header : ResumeHeader
  sections : List ResumeSection
  deriving DecidableEq, Repr

/-- The regex `/^\*\*(.*)\*\* \| (.*)/`: the line must open with a double
asterisk and the greedy first group ends at the last occurrence of the
asterisk-pair/pipe separator. -/
def matchTitleCompany (l : List Char) : Option (List Char × List Char) :=
  match l with
  | '*' :: '*' :: body =>
    (lastIndexOfPat ['*', '*', ' ', '|', ' '] body).map
      (fun j => (body.take j, body.drop (j + 5)))
  | _ => none

/-- The regex `/^\*(.*)\*/`: the line opens with an asterisk and the greedy
group ends at the last later asterisk. -/
def matchDate (l : List Char) : Option (List Char) :=
  match l with
  | '*' :: rest => (lastIndexOfPat ['*'] rest).map (fun j => rest.take j)
  | _ => none

/-- The regex `/^\* (.*)/`: an asterisk-space marker followed by the rest. -/
def matchBullet (l : List Char) : Option (List Char) :=
  match l with
  | '*' :: ' ' :: rest => some rest
  | _ => none

/-- The regex `/^\* \*\*(.*):\*\* (.*)/` of the skills post-processing. -/
def matchSkill (l : List Char) : Option (List Char × List Char) :=
  match l with
  | '*' :: ' ' :: '*' :: '*' :: body =>
    (lastIndexOfPat [':', '*', '*', ' '] body).map
      (fun j => (body.take j, body.drop (j + 4)))
  | _ => none

/-- One iteration of the work-experience loop on (finished jobs, active job):
a title/company line pushes the active job and starts a new one; otherwise,
with a job active, a date match sets its date and, failing that, a bullet
match appends to its description; anything else is ignored. -/
def workStep (st : List Job × Option Job) (l : List Char) : List Job × Option Job :=
  match matchTitleCompany l with
  | some (t, c) =>
    (st.1 ++ st.2.toList, some ⟨(jsTrim t).asString, (jsTrim c).asString, "", []⟩)
  | none =>
    match st.2 with
    | none => st
    | some j =>
      match matchDate l with
      | some d => (st.1, some { j with date := (jsTrim d).asString })
      | none =>
        match matchBullet l with
        | some b => (st.1, some { j with description := j.description ++ [(jsTrim b).asString] })
        | none => (st.1, some j)

/-- The work-experience post-processing: fold the loop over the raw content
lines and push the final active job. -/
def processWork (content : List (List Char)) : List Job :=
  let st := content.foldl workStep ([], none)
  st.1 ++ st.2.toList

/-- The skills per-line mapping: a matching line yields a categorized entry;
any other line has a leading bullet marker stripped (the anchored
`replace(/^\* /, '')`) and is emitted uncategorized. -/
def skillLineOf (l : List Char) : SkillLine :=
  match matchSkill l with
  | some (c, i) => ⟨some (jsTrim c).asString, (jsTrim i).asString⟩
  | none =>
    match l with
    | '*' :: ' ' :: rest => ⟨none, (jsTrim rest).asString⟩
    | _ => ⟨none, (jsTrim l).asString⟩

/-- The section marker of the resume parser. -/
def sec2 : List Char := ['#', '#', ' ']

/-- A raw section: processed title and raw content lines. -/
def RawSection := List Char × List (List Char)

/-- The section-collection loop of the resume parser: a line starting with the
section marker closes the active section and opens a new one (title = line
with the first occurrence of the marker removed, trimmed); any other line is
appended to the active section's content; lines before the first marker are
discarded. -/
def collectAux (acc : List RawSection) (cur : Option RawSection) :
    List (List Char) → List RawSection
  | [] => acc ++ cur.toList
  | l :: rest =>
    if startsWithPat sec2 l then
      collectAux (acc ++ cur.toList) (some (jsTrim (replaceFirstPat sec2 l), [])) rest
    else
      match cur with
      | some s => collectAux acc (some (s.1, s.2 ++ [l])) rest
      | none => collectAux acc none rest

/-- Title-driven post-processing of one raw section. -/
def processSection (s : RawSection) : ResumeSection :=
  if s.1 = "Work Experience".data then ⟨s.1.asString, .jobs (processWork s.2)⟩
  else if s.1 = "Skills".data then ⟨s.1.asString, .skills (s.2.map skillLineOf)⟩
  else ⟨s.1.asString, .raw (List.intercalate ['\n'] s.2).asString⟩

/-- The non-blank lines the resume parser works on: trim the whole text,
split on newlines, and drop lines that are blank after trimming (the kept
lines themselves stay untrimmed). -/
def nonBlankLines (text : String) : List (List Char) :=
  (splitOnChar '\n' (jsTrim text.data)).filter (fun l => !(jsTrim l).isEmpty)

/-- The contact split `line.trim().split(/\s*\|\s*/)`.  On a pre-trimmed line
the regex split equals splitting on the pipe character and trimming each
piece, since the greedy whitespace groups absorb exactly the whitespace
adjacent to each pipe and the line ends carry none. -/
def pipeSplit (l : List Char) : List String :=
  (splitOnChar '|' (jsTrim l)).map (fun p => (jsTrim p).asString)

/-- The resume parser `parseResumeMarkdown`: reject empty input, collect
non-blank lines and reject fewer than two, consume the first as the header
name (first occurrence of the heading marker removed, trimmed) and the second
as the contact line, collect the remaining lines into sections and
post-process each by title. -/
def parseResumeMarkdown (text : String) : Option ResumeDoc :=
  if text = "" then none
  else
    match nonBlankLines text with
    | l1 :: l2 :: rest =>
      some ⟨⟨(jsTrim (replaceFirstPat ['#', ' '] l1)).asString, pipeSplit l2⟩,
            (collectAux [] none rest).map processSection⟩
    | _ => none

/-! ### Helper lemmas -/

theorem nonBlankLines_empty : nonBlankLines "" = [] := rfl

theorem startsWith_bullet_shape {t : List Char} (h : startsWithPat bullet2 t = true) :
    ∃ r, t = '*' :: ' ' :: r := by
  match t with
  | [] => simp [startsWithPat, bullet2] at h
  | [c] => simp [startsWithPat, bullet2] at h
  | c :: c2 :: r =>
    simp only [bullet2, startsWithPat, Bool.and_eq_true, beq_iff_eq] at h
    obtain ⟨h1, h2, -⟩ := h
    exact ⟨r, by rw [h1, h2]⟩

theorem lastIndexOf_isSome {c : Char} {l : List Char} (h : c ∈ l) :
    (lastIndexOfPat [c] l).isSome = true := by
  induction l with
  | nil => cases h
  | cons a l ih =>
    rcases List.mem_cons.mp h with h | h
    · cases hr : lastIndexOfPat [c] l with
      | some i => simp [lastIndexOfPat, hr]
      | none =>
        simp [lastIndexOfPat, hr, startsWithPat, h.symm]
    · have := ih h
      cases hr : lastIndexOfPat [c] l with
      | some i => simp [lastIndexOfPat, hr]
      | none => rw [hr] at this; cases this

/-- `summaryStep` on a line whose trimmed form is a bullet line appends one
item to the open list and emits nothing. -/
theorem summaryStep_bullet (els : List Block) (cur : List (List Span))
    {l r : List Char} (h : jsTrim l = '*' :: ' ' :: r) :
    summaryStep (els, cur) l = (els, cur ++ [parseLineL r]) := by
  simp only [summaryStep, h]
  rfl

/-! ### Claim C1 -/

/-- Claim C1: `parseResumeMarkdown` returns absent exactly when the input is
the empty string or fewer than two non-blank lines remain after discarding
blank lines; for every other string input it returns a document. -/
theorem parseResume_none_iff (s : String) :
    parseResumeMarkdown s = none ↔ s = "" ∨ (nonBlankLines s).length < 2 := by
  by_cases hs : s = ""
  · subst hs
    simp [parseResumeMarkdown]
  · simp only [parseResumeMarkdown, if_neg hs]
    rcases h : nonBlankLines s with - | ⟨a, - | ⟨b, t⟩⟩ <;>
      simp [h, hs]

/-! ### Claim C2 -/

/-- Claim C2: the inline tokenizer applied to the line
containing a bold token, a code token and a link token yields exactly the
bold, text, code, text, link span sequence, with no empty spans. -/
theorem parseLine_example :
    parseLine "**a** and `b` and [c](d)" =
      [.bold "a", .text " and ", .code "b", .text " and ", .link "c" "d"] := by
  decide

/-! ### Claim C3 -/

/-- Claim C3: a "Work Experience" section with a title/company line, a date
line and two bullet lines yields exactly one job record with those fields. -/
theorem workExperience_example :
    parseResumeMarkdown
        "# N\na | b\n## Work Experience\n**Engineer** | Acme\n*2020 - Present*\n* Did X\n* Did Y" =
      some ⟨⟨"N", ["a", "b"]⟩,
        [⟨"Work Experience",
          .jobs [⟨"Engineer", "Acme", "2020 - Present", ["Did X", "Did Y"]⟩]⟩]⟩ := by
  decide

/-! ### Claim C4 -/

/-- Claim C4: the header and skills example input yields the header
name "Jane Doe", the three contact fields, and a single "Skills" section
with one categorized and one uncategorized skill line. -/
theorem skills_example :
    parseResumeMarkdown
        "# Jane Doe\njane@x.com | 555-1111 | site.com\n## Skills\n* **Tools:** Git, Docker\n* Extra skill" =
      some ⟨⟨"Jane Doe", ["jane@x.com", "555-1111", "site.com"]⟩,
        [⟨"Skills",
          .skills [⟨some "Tools", "Git, Docker"⟩, ⟨none, "Extra skill"⟩]⟩]⟩ := by
  decide

/-! ### Claim C9 -/

/-- Claim C9: while a job is active the date pattern is tested before the
bullet pattern, so a bullet-form line whose text contains a further asterisk
is consumed as the job's date (overwriting any previous date) and is not
appended to the bullet list. -/
theorem date_before_bullet (js : List Job) (j : Job) (t : List Char)
    (h : '*' ∈ t) :
    ∃ d : String, workStep (js, some j) ('*' :: ' ' :: t) = (js, some { j with date := d }) := by
  have hs : ('*' : Char) ∈ (' ' :: t) := List.mem_cons_of_mem _ h
  obtain ⟨jv, hj⟩ := Option.isSome_iff_exists.mp (lastIndexOf_isSome hs)
  refine ⟨(jsTrim ((' ' :: t).take jv)).asString, ?_⟩
  have h1 : matchTitleCompany ('*' :: ' ' :: t) = none := rfl
  have h2 : matchDate ('*' :: ' ' :: t) = some ((' ' :: t).take jv) := by
    show (lastIndexOfPat ['*'] (' ' :: t)).map (fun j => (' ' :: t).take j) = _
    rw [hj]
    rfl
  simp only [workStep, h1, h2]

/-- Witness for claim C9: the bullet-form line with a bold fragment replaces
the previously set date of the active job. -/
theorem date_before_bullet_witness :
    ('*' : Char) ∈ "Did **X**".data ∧
      ∃ d : String, workStep ([], some ⟨"E", "C", "2020", []⟩) ('*' :: ' ' :: "Did **X**".data) =
        ([], some ⟨"E", "C", d, []⟩) :=
  ⟨by decide, date_before_bullet [] ⟨"E", "C", "2020", []⟩ "Did **X**".data (by decide)⟩

/-! ### Claim C5 -/

/-- Claim C5: list blocks of the summary parser are maximal.  Consecutive
bullet lines only extend the open list accumulator and emit nothing; any line
that is not a bullet line after trimming (a heading, another non-blank line,
or a blank line) closes the open list, emitting it as a single list block via
`flushList`, and emits no list block of its own; and concretely, a bullet run
interrupted by a blank line produces two separate list blocks. -/
theorem summary_list_maximal :
    (∀ (els : List Block) (cur : List (List Span)) (bs : List (List Char)),
        (∀ l ∈ bs, startsWithPat bullet2 (jsTrim l) = true) →
        bs.foldl summaryStep (els, cur) =
          (els, cur ++ bs.map (fun l => parseLineL ((jsTrim l).drop 2)))) ∧
    (∀ (els : List Block) (cur : List (List Span)) (l : List Char),
        startsWithPat bullet2 (jsTrim l) = false →
        (summaryStep (els, cur) l).2 = [] ∧
        ∃ tl, (summaryStep (els, cur) l).1 = flushList els cur ++ tl ∧
          ∀ its, Block.list its ∉ tl) ∧
    parseSummary "* a\n\n* b" = [Block.list [[Span.text "a"]], Block.list [[Span.text "b"]]] := by
  refine ⟨?_, ?_, by decide⟩
  · intro els cur bs
    induction bs generalizing cur with
    | nil => intro _; simp
    | cons l bs ih =>
      intro h
      obtain ⟨r, hr⟩ := startsWith_bullet_shape (h l (List.mem_cons_self l bs))
      have hstep := summaryStep_bullet els cur hr
      rw [List.foldl_cons, hstep, ih _ (fun x hx => h x (List.mem_cons_of_mem l hx))]
      simp [hr]
  · intro els cur l h
    by_cases hh : startsWithPat hdr3 (jsTrim l) = true
    · refine ⟨by simp [summaryStep, hh], [Block.heading (parseLineL (replaceFirstPat hdr3 (jsTrim l)))], by simp [summaryStep, hh], ?_⟩
      intro its hmem
      exact Block.noConfusion (List.mem_singleton.mp hmem)
    · by_cases hb : (jsTrim l).isEmpty
      · exact ⟨by simp [summaryStep, hh, h, hb], [], by simp [summaryStep, hh, h, hb], by simp⟩
      · refine ⟨by simp [summaryStep, hh, h, hb], [Block.para (parseLineL (jsTrim l))], by simp [summaryStep, hh, h, hb], ?_⟩
        intro its hmem
        exact Block.noConfusion (List.mem_singleton.mp hmem)

/-- Witness for claim C5: two consecutive bullet lines fold into a single open
list accumulator holding both items, without emitting a block. -/
theorem summary_list_maximal_witness :
    (∀ l ∈ ["* x".data, "* y".data], startsWithPat bullet2 (jsTrim l) = true) ∧
    ["* x".data, "* y".data].foldl summaryStep ([], []) =
      ([], [] ++ ["* x".data, "* y".data].map (fun l => parseLineL ((jsTrim l).drop 2))) :=
  ⟨by decide, summary_list_maximal.1 [] [] ["* x".data, "* y".data] (by decide)⟩

/-! ### Claim C10 -/

/-- Every list block of a block sequence is non-empty. -/
def listsNonEmpty (bls : List Block) : Prop :=
  ∀ its, Block.list its ∈ bls → its ≠ []

theorem flushList_listsNonEmpty {els : List Block} {cur : List (List Span)}
    (h : listsNonEmpty els) : listsNonEmpty (flushList els cur) := by
  unfold flushList
  split
  · exact h
  · next hcur =>
    intro its hmem
    rcases List.mem_append.mp hmem with hm | hm
    · exact h its hm
    · have := List.mem_singleton.mp hm
      cases this
      intro he
      rw [he] at hcur
      simp at hcur

theorem summaryStep_listsNonEmpty {st : List Block × List (List Span)} {l : List Char}
    (h : listsNonEmpty st.1) : listsNonEmpty (summaryStep st l).1 := by
  obtain ⟨els, cur⟩ := st
  unfold summaryStep
  dsimp only
  split
  · intro its hmem
    rcases List.mem_append.mp hmem with hm | hm
    · exact flushList_listsNonEmpty h its hm
    · cases List.mem_singleton.mp hm
  · split
    · exact h
    · split
      · intro its hmem
        rcases List.mem_append.mp hmem with hm | hm
        · exact flushList_listsNonEmpty h its hm
        · cases List.mem_singleton.mp hm
      · exact flushList_listsNonEmpty h

theorem foldl_summaryStep_listsNonEmpty (lines : List (List Char)) :
    ∀ st : List Block × List (List Span), listsNonEmpty st.1 →
      listsNonEmpty ((lines.foldl summaryStep st).1) := by
  induction lines with
  | nil => intro st h; exact h
  | cons l lines ih =>
    intro st h
    exact ih _ (summaryStep_listsNonEmpty h)

/-- Claim C10: the summary parser never emits an empty list block — the list
accumulator is only flushed into the output when it is non-empty. -/
theorem no_empty_list_blocks (text : String) (its : List (List Span))
    (h : Block.list its ∈ parseSummary text) : its ≠ [] := by
  have hinv : listsNonEmpty (parseSummary text) := by
    unfold parseSummary
    exact flushList_listsNonEmpty
      (foldl_summaryStep_listsNonEmpty _ ([], []) (fun _ hmem => by cases hmem))
  exact hinv its h

/-- Witness for claim C10: the single list block produced from one bullet line
is non-empty. -/
theorem no_empty_list_blocks_witness :
    Block.list [[Span.text "a"]] ∈ parseSummary "* a" ∧ [[Span.text "a"]] ≠ [] :=
  ⟨by decide, no_empty_list_blocks "* a" [[Span.text "a"]] (by decide)⟩

/-! ### Claim C6 -/

/-- Modelled from the spec: the header name is "the first non-blank line with
only a leading heading marker stripped", the line otherwise unchanged, and a
line without a leading marker taken verbatim. -/
def specHeaderName (l : List Char) : List Char :=
  if startsWithPat ['#', ' '] l then l.drop 2 else l

/-- Whether a match of the contact separator `\s*\|\s*` starts at this
position: optional whitespace immediately followed by a pipe. -/
def wsPipeAt (cs : List Char) : Bool :=
  startsWithPat ['|'] (cs.dropWhile jsWhite)

/-- Consume one match of `\s*\|\s*`: the leading whitespace, the pipe, and
the trailing whitespace. -/
def consumeWsPipe (cs : List Char) : List Char :=
  ((cs.dropWhile jsWhite).drop 1).dropWhile jsWhite

/-- Modelled from the spec: JavaScript `split(/\s*\|\s*/)` on the raw line —
split at each leftmost match of a pipe with optional surrounding whitespace.
Each step consumes at least the pipe character, so the fuel is never
exhausted. -/
def specSplitPipesAux : Nat → List Char → List Char → List (List Char)
  | 0, cur, rest => [cur ++ rest]
  | n + 1, cur, cs =>
    match cs with
    | [] => [cur]
    | c :: rest =>
      if wsPipeAt (c :: rest) then cur :: specSplitPipesAux n [] (consumeWsPipe (c :: rest))
      else specSplitPipesAux n (cur ++ [c]) rest

/-- Modelled from the spec: the second non-blank line "split on a pipe
separator surrounded by optional whitespace", with no further trimming. -/
def specSplitPipes (cs : List Char) : List (List Char) :=
  specSplitPipesAux (cs.length + 1) [] cs

/-- Claim C6 as stated: for every parseable input the header name is the
first non-blank line with only a leading marker stripped, and the contact
fields are the raw second non-blank line split on the pipe separator. -/
def headerPerSpec : Prop :=
  ∀ (s : String) (l1 l2 : List Char) (rest : List (List Char)),
    nonBlankLines s = l1 :: l2 :: rest →
    (parseResumeMarkdown s).map ResumeDoc.header =
      some ⟨(specHeaderName l1).asString, (specSplitPipes l2).map List.asString⟩

/-- Counterexample to claim C6: on the input whose first non-blank line has an
interior heading marker and whose second has leading whitespace, the code
removes the first occurrence of the marker anywhere (name "A B", not the
verbatim "A # B") and trims the contact pieces. -/
theorem headerPerSpec_counterexample : ¬ headerPerSpec := by
  intro h
  have := h "A # B\n x | y" "A # B".data " x | y".data [] (by decide)
  exact absurd this (by decide)

/-- Claim C6 (corrected): for every parseable input the header name is the
first non-blank line with the first occurrence of the heading marker —
anywhere in the line — removed and the result trimmed, and the contact fields
are the trimmed second non-blank line split on pipes with the whitespace
around each pipe discarded. -/
theorem header_from_first_two_lines (s : String) (l1 l2 : List Char)
    (rest : List (List Char)) (h : nonBlankLines s = l1 :: l2 :: rest) :
    (parseResumeMarkdown s).map ResumeDoc.header =
      some ⟨(jsTrim (replaceFirstPat ['#', ' '] l1)).asString, pipeSplit l2⟩ := by
  have hs : s ≠ "" := by
    intro he
    rw [he, nonBlankLines_empty] at h
    cases h
  simp only [parseResumeMarkdown, if_neg hs, h]
  rfl

/-- Witness for claim C6 (corrected): a concrete two-line input. -/
theorem header_from_first_two_lines_witness :
    nonBlankLines "A # B\n x | y" = ["A # B".data, " x | y".data] ∧
    (parseResumeMarkdown "A # B\n x | y").map ResumeDoc.header =
      some ⟨(jsTrim (replaceFirstPat ['#', ' '] "A # B".data)).asString, pipeSplit " x | y".data⟩ :=
  ⟨by decide, header_from_first_two_lines "A # B\n x | y" "A # B".data " x | y".data [] (by decide)⟩

/-! ### Claim C7 -/

/-- Modelled from the spec: the claimed line preprocessing — trim each line
and drop lines that become empty, with all later steps operating on the
trimmed lines. -/
def nonBlankLinesTrimmed (text : String) : List (List Char) :=
  ((splitOnChar '\n' (jsTrim text.data)).map jsTrim).filter (fun l => !l.isEmpty)

/-- Modelled from the spec: the resume parser as claim C7 describes it, with
every subsequent step operating on the per-line-trimmed lines. -/
def parseResumeTrimmedSpec (text : String) : Option ResumeDoc :=
  if text = "" then none
  else
    match nonBlankLinesTrimmed text with
    | l1 :: l2 :: rest =>
      some ⟨⟨(jsTrim (replaceFirstPat ['#', ' '] l1)).asString, pipeSplit l2⟩,
            (collectAux [] none rest).map processSection⟩
    | _ => none

/-- Claim C7 as stated: the parser operates on per-line-trimmed lines. -/
def trimsEachLine : Prop :=
  ∀ s : String, parseResumeMarkdown s = parseResumeTrimmedSpec s

/-- Counterexample to claim C7: on an input with a section marker preceded by
leading whitespace, the code keeps the kept lines untrimmed, so the line does
not open a new section but is stored as raw content of the active section. -/
theorem trimsEachLine_counterexample : ¬ trimsEachLine := by
  intro h
  have := h "# N\na | b\n## Real\n ## Fake\nxyz"
  exact absurd this (by decide)

/-- Claim C7 (corrected): the parser drops lines that are blank after
trimming but keeps the remaining lines untrimmed; a line whose trimmed form
starts with the section marker but which does not literally start with it is
appended to the active section's content (or discarded when no section is
active) instead of opening a new section. -/
theorem untrimmed_marker_is_content :
    (∀ (acc : List RawSection) (t : List Char) (cs : List (List Char))
        (l : List Char) (rest : List (List Char)),
        startsWithPat sec2 (jsTrim l) = true →
        startsWithPat sec2 l = false →
        collectAux acc (some (t, cs)) (l :: rest) = collectAux acc (some (t, cs ++ [l])) rest) ∧
    (∀ (acc : List RawSection) (l : List Char) (rest : List (List Char)),
        startsWithPat sec2 l = false →
        collectAux acc none (l :: rest) = collectAux acc none rest) := by
  constructor
  · intro acc t cs l rest _ h2
    simp [collectAux, h2]
  · intro acc l rest h2
    simp [collectAux, h2]

/-- Witness for claim C7 (corrected): the whitespace-prefixed section marker
line is appended as content of the open "Real" section. -/
theorem untrimmed_marker_is_content_witness :
    startsWithPat sec2 (jsTrim " ## Fake".data) = true ∧
    startsWithPat sec2 " ## Fake".data = false ∧
    collectAux [] (some ("Real".data, [])) [" ## Fake".data] =
      collectAux [] (some ("Real".data, [] ++ [" ## Fake".data])) [] :=
  ⟨by decide, by decide,
    untrimmed_marker_is_content.1 [] "Real".data [] " ## Fake".data [] (by decide) (by decide)⟩

/-! ### Claim C8 -/

/-- Claim C8: the resume parser is total — every string with at least two
non-blank lines yields a document (absent is returned only under the
precondition of claim C1, never an error) — and unmatched lines inside a
parseable document are silently dropped, as on the work-experience content
line matching none of the three patterns. -/
theorem parseResume_total_lenient :
    (∀ s : String, 2 ≤ (nonBlankLines s).length → (parseResumeMarkdown s).isSome = true) ∧
    processWork ["**E** | C".data, "plain unmatched line".data, "* Did X".data] =
      [⟨"E", "C", "", ["Did X"]⟩] := by
  constructor
  · intro s h
    have hs : s ≠ "" := by
      intro he
      rw [he, nonBlankLines_empty] at h
      exact absurd h (by decide)
    simp only [parseResumeMarkdown, if_neg hs]
    rcases hl : nonBlankLines s with - | ⟨a, - | ⟨b, t⟩⟩
    · rw [hl] at h; simp at h
    · rw [hl] at h; simp at h
    · rfl
  · decide

/-- Witness for claim C8: a concrete two-line input parses to a document. -/
theorem parseResume_total_lenient_witness :
    2 ≤ (nonBlankLines "# A\nB").length ∧ (parseResumeMarkdown "# A\nB").isSome = true :=
  ⟨by decide, parseResume_total_lenient.1 "# A\nB" (by decide)⟩
